import Mathlib

/-!
Verification development for the map-viewer repository.

The definitions below are shallow embeddings of the TypeScript sources:
  * `src/lib/countries.ts` (country catalog and the anti-repetition selector),
  * `src/lib/error-handling.ts` (error categorization and the retry handler),
  * `src/lib/google-maps.ts` (the loader's module-level state machine),
  * `src/hooks/useCountryCycling.ts` (the cycling controller),
  * `src/components/CountryCycler.tsx` (the viewport binding).

JavaScript specifics are modelled as follows: `Math.floor(Math.random() * n)`
is an adversarially chosen index below `n`, given here as an arbitrary natural
`r` used as `r % n`; timers are armed/disarmed flags together with explicit
timer-fired events; promise identity is a natural number; the DOM, console
logging and the real clock are outside the model.
-/

/-- Geographic coordinates, as in the `center` field of `Country`. -/
structure LatLng where
  lat : Rat
  lng : Rat
deriving DecidableEq, Repr

/-- The `Country` record from `src/types/google-maps.d.ts`:
name, center coordinates, zoom level, and country code. -/
structure Country where
  name : String
  center : LatLng
  zoom : Int
  code : String
deriving DecidableEq, Repr

/-! ### Error handling (`src/lib/error-handling.ts`) -/

/-- The `type` field of `MapError`. -/
inductive MapErrorType where
  | api_key_missing
  | api_key_invalid
  | network_error
  | api_load_failed
  | map_init_failed
  | unknown
deriving DecidableEq, Repr

/-- The context hint accepted by `createMapError` and `executeWithRetry`. -/
inductive ErrorContext where
  | api_key
  | api_load
  | map_init
  | network
deriving DecidableEq, Repr

/-- The `MapError` shape produced by `createMapError`. -/
structure MapError where
  type : MapErrorType
  message : String
  details : String
  retryable : Bool
deriving DecidableEq, Repr

/-- ASCII lower-casing of one character, modelling
JavaScript's `toLowerCase` on the ASCII range. -/
def lowerChar (c : Char) : Char :=
  if 'A' ≤ c ∧ c ≤ 'Z' then Char.ofNat (c.toNat + 32) else c

/-- A string as a lower-cased character list (`message.toLowerCase()`). -/
def lowerStr (s : String) : List Char := s.data.map lowerChar

/-- Check whether the second list starts with the first. -/
def startsWithL : List Char → List Char → Bool
  | [], _ => true
  | _ :: _, [] => false
  | a :: as, b :: bs => a = b && startsWithL as bs

/-- Contiguous-substring test on character lists, modelling
JavaScript's `String.prototype.includes`. -/
def containsL (needle : List Char) : List Char → Bool
  | [] => startsWithL needle []
  | a :: rest => startsWithL needle (a :: rest) || containsL needle rest

/-- Case-sensitive substring test `haystack.includes(needle)`. -/
def includesStr (haystack needle : String) : Bool :=
  containsL needle.data haystack.data

/-- Case-insensitive test `message.toLowerCase().includes(indicator)` for a
lower-case indicator. -/
def includesLower (message : String) (indicator : String) : Bool :=
  containsL indicator.data (lowerStr message)

/-- Keyword list of `isApiKeyError`. -/
def apiKeyIndicators : List String :=
  ["api key", "api_key", "invalid key", "missing key",
   "unauthorized", "forbidden", "quota exceeded", "billing"]

/-- Keyword list of `isNetworkError`. -/
def networkIndicators : List String :=
  ["network", "connection", "timeout", "offline", "fetch",
   "cors", "net::", "failed to fetch", "load failed"]

/-- Keyword list of `isApiLoadError`. -/
def loadIndicators : List String :=
  ["script", "load", "loading", "failed to load", "script error", "resource"]

/-- `isApiKeyError(message)` from `error-handling.ts`. -/
def isApiKeyError (message : String) : Bool :=
  apiKeyIndicators.any (fun ind => includesLower message ind)

/-- `isNetworkError(message)` from `error-handling.ts`. -/
def isNetworkError (message : String) : Bool :=
  networkIndicators.any (fun ind => includesLower message ind)

/-- `isApiLoadError(message)` from `error-handling.ts`. -/
def isApiLoadError (message : String) : Bool :=
  loadIndicators.any (fun ind => includesLower message ind)

/-- `createMapError(error, context)`: the argument is the error's message text
(`error instanceof Error ? error.message : String(error)`). -/
def createMapError (errorMessage : String) (context : ErrorContext) : MapError :=
  if context = .api_key || isApiKeyError errorMessage then
    if includesStr errorMessage "missing" then
      { type := .api_key_missing
        message := "Google Maps API key is not configured"
        details := errorMessage, retryable := false }
    else
      { type := .api_key_invalid
        message := "Google Maps API key is invalid or has insufficient permissions"
        details := errorMessage, retryable := false }
  else if context = .network || isNetworkError errorMessage then
    { type := .network_error
      message := "Unable to connect to Google Maps services"
      details := errorMessage, retryable := true }
  else if context = .api_load || isApiLoadError errorMessage then
    { type := .api_load_failed
      message := "Failed to load Google Maps API"
      details := errorMessage, retryable := true }
  else if context = .map_init then
    { type := .map_init_failed
      message := "Failed to initialize the map"
      details := errorMessage, retryable := true }
  else
    { type := .unknown
      message := "An unexpected error occurred"
      details := errorMessage, retryable := true }

/-- `createOfflineError()` from `error-handling.ts`. -/
def createOfflineError : MapError :=
  { type := .network_error
    message := "You appear to be offline"
    details := "Internet connection is required to load Google Maps. Please check your connection and try again."
    retryable := true }

/-! ### Bucket views of the categorizer (for claim C6) -/

/-- The three keyword-matched buckets, in the order the code tests them. -/
inductive Bucket where
  | credential
  | network
  | acquisition
deriving DecidableEq, Repr

/-- The context hint that names a given bucket. -/
def bucketHint : Bucket → ErrorContext
  | .credential => .api_key
  | .network => .network
  | .acquisition => .api_load

/-- The message-content test of a given bucket. -/
def bucketMsgMatch : Bucket → String → Bool
  | .credential, m => isApiKeyError m
  | .network, m => isNetworkError m
  | .acquisition, m => isApiLoadError m

/-- The error a given bucket produces for a message. -/
def bucketError : Bucket → String → MapError
  | .credential, m =>
    if includesStr m "missing" then
      { type := .api_key_missing
        message := "Google Maps API key is not configured"
        details := m, retryable := false }
    else
      { type := .api_key_invalid
        message := "Google Maps API key is invalid or has insufficient permissions"
        details := m, retryable := false }
  | .network, m =>
    { type := .network_error
      message := "Unable to connect to Google Maps services"
      details := m, retryable := true }
  | .acquisition, m =>
    { type := .api_load_failed
      message := "Failed to load Google Maps API"
      details := m, retryable := true }

/-- The fall-through result when no bucket fires: the `map_init` context
default, or the `unknown` fallback. -/
def contextDefault (context : ErrorContext) (m : String) : MapError :=
  if context = .map_init then
    { type := .map_init_failed
      message := "Failed to initialize the map"
      details := m, retryable := true }
  else
    { type := .unknown
      message := "An unexpected error occurred"
      details := m, retryable := true }

/-- First-match reading of the categorizer: each bucket, in the fixed order
credential, network, acquisition, fires when the context hint names it or the
message matches it; otherwise the context default applies. -/
def orderedCategorize (m : String) (context : ErrorContext) : MapError :=
  match [Bucket.credential, Bucket.network, Bucket.acquisition].find?
      (fun b => bucketHint b = context || bucketMsgMatch b m) with
  | some b => bucketError b m
  | none => contextDefault context m

/-- Modelled from the claim's words (not from the source): the context hint
decides the bucket outright, and only the default `map_init` hint falls back
to message-content matching in the fixed bucket order. -/
def hintFirstCategorize (m : String) (context : ErrorContext) : MapError :=
  match context with
  | .api_key => bucketError .credential m
  | .network => bucketError .network m
  | .api_load => bucketError .acquisition m
  | .map_init =>
    if isApiKeyError m then bucketError .credential m
    else if isNetworkError m then bucketError .network m
    else if isApiLoadError m then bucketError .acquisition m
    else contextDefault .map_init m

/-! ### Retry handler (`ErrorHandler` in `error-handling.ts`)

The operation under retry is a function from the attempt index to that
attempt's outcome; a failure carries the thrown error's message text. The
run records the result, the waits performed (in order), the number of
invocations of the operation, and the handler's final `retryCount` field. -/

/-- Outcome of `executeWithRetry`: the operation's value, or a thrown
categorized error. -/
inductive RetryResult (α : Type) where
  | ok (val : α)
  | err (e : MapError)
deriving DecidableEq, Repr

/-- Observable record of one `executeWithRetry` run. -/
structure RetryRun (α : Type) where
  result : RetryResult α
  delays : List Nat
  attempts : Nat
  finalRetryCount : Nat
deriving DecidableEq, Repr

namespace ErrorHandler

/-- One evaluation of the body of `executeWithRetry`, recursing on explicit
fuel; the recursion in the source strictly increases `retryCount`, which is
capped by `maxRetries`, so fuel `maxRetries + 1 - retryCount` is exact and
the out-of-fuel branch is unreachable from the entry point. -/
def executeWithRetryAux (maxRetries retryDelay : Nat) (offline : Bool)
    (fn : Nat → Except String α) (context : ErrorContext) :
    Nat → Nat → Nat → RetryRun α
  | 0, _, retryCount =>
    { result := .err (createMapError "out of fuel" context)
      delays := [], attempts := 0, finalRetryCount := retryCount }
  | fuel + 1, attempt, retryCount =>
    match fn attempt with
    | .ok v =>
      { result := .ok v, delays := [], attempts := 1, finalRetryCount := 0 }
    | .error msg =>
      let mapError := createMapError msg context
      if mapError.retryable = false ∨ maxRetries ≤ retryCount then
        { result := .err mapError, delays := [], attempts := 1
          finalRetryCount := retryCount }
      else if mapError.type = .network_error ∧ offline then
        { result := .err createOfflineError, delays := [], attempts := 1
          finalRetryCount := retryCount }
      else
        let rc := retryCount + 1
        let rest := executeWithRetryAux maxRetries retryDelay offline fn context
          fuel (attempt + 1) rc
        { result := rest.result
          delays := retryDelay * rc :: rest.delays
          attempts := rest.attempts + 1
          finalRetryCount := rest.finalRetryCount }

/-- `executeWithRetry(fn, context)` on a handler whose `retryCount` field
currently holds `retryCount`. -/
def executeWithRetry (maxRetries retryDelay : Nat) (offline : Bool)
    (fn : Nat → Except String α) (context : ErrorContext)
    (retryCount : Nat) : RetryRun α :=
  executeWithRetryAux maxRetries retryDelay offline fn context
    (maxRetries + 1 - retryCount) 0 retryCount

end ErrorHandler

/-! ### Loader state (`src/lib/google-maps.ts`)

The module-level variables `isLoading`, `isLoaded` and `loadPromise` form the
loader's state; a promise is identified by a natural number. `load()` is
split into its synchronous part (everything executed before the caller
regains control) and the asynchronous continuations, which are modelled as
separate events (script onload readiness, script onerror, loading timeout,
and the retry policy re-invoking the acquisition body after a retryable
failure — the re-invocation runs the body again, re-setting `isLoading`,
but never re-assigns `loadPromise`, which is written only in `load()`
itself and cleared by the timeout and onerror handlers). -/

/-- The loader's module-level mutable state. -/
structure LoaderState where
  isLoading : Bool
  isLoaded : Bool
  loadPromise : Option Nat
deriving DecidableEq, Repr

/-- Environment read by the loader: offline detection, presence of
`window.google.maps`, and validity of the configured API key. -/
structure LoadEnv where
  offline : Bool
  windowGoogleAvailable : Bool
  apiKeyValid : Bool
deriving DecidableEq, Repr

/-- What `loadGoogleMapsAPI()` gives back to its caller. -/
inductive LoadCallResult where
  | existing (p : Nat)
  | resolvedImmediate
  | threwOffline
  | started (p : Nat)
deriving DecidableEq, Repr

/-- The synchronous part of one invocation of the acquisition body (the
`fn` handed to `executeWithRetry`): validate the API key (a failure throws
before any flag is touched), mark loading, and complete at once when the
capability is already present in the window. The body never touches
`loadPromise`. -/
def acquisitionBodyStart (env : LoadEnv) (s : LoaderState) : LoaderState :=
  if env.apiKeyValid = false then s
  else if env.windowGoogleAvailable then
    { s with isLoading := false, isLoaded := true }
  else { s with isLoading := true }

/-- The part of `loadGoogleMapsAPI()` after the already-loading and
already-loaded early returns: record the new promise, then run the
acquisition body's synchronous part. -/
def loadGoogleMapsAPIStart (env : LoadEnv) (fresh : Nat) (s : LoaderState) :
    LoadCallResult × LoaderState :=
  if s.isLoaded then (.resolvedImmediate, s)
  else if env.offline then (.threwOffline, s)
  else
    (.started fresh, acquisitionBodyStart env { s with loadPromise := some fresh })

/-- `loadGoogleMapsAPI()`: the synchronous part of one call, returning the
promise handed to the caller and the updated module state. -/
def loadGoogleMapsAPI (env : LoadEnv) (fresh : Nat) (s : LoaderState) :
    LoadCallResult × LoaderState :=
  if s.isLoading then
    match s.loadPromise with
    | some p => (.existing p, s)
    | none => loadGoogleMapsAPIStart env fresh s
  else loadGoogleMapsAPIStart env fresh s

/-- The 15-second loading timeout firing. -/
def loadTimeoutFired (s : LoaderState) : LoaderState :=
  { s with isLoading := false, loadPromise := none }

/-- The script `onload` handler once the readiness poll sees the API fully
initialized. -/
def scriptLoadedReady (s : LoaderState) : LoaderState :=
  { s with isLoaded := true, isLoading := false }

/-- The script `onerror` handler. -/
def scriptErrored (s : LoaderState) : LoaderState :=
  { s with isLoading := false, loadPromise := none }

/-- `isGoogleMapsLoaded()`: returns whether the API is available, latching
the module flag when `window.google.maps` is present. -/
def isGoogleMapsLoaded (windowGoogleAvailable : Bool) (s : LoaderState) :
    Bool × LoaderState :=
  let s' := if windowGoogleAvailable ∧ s.isLoaded = false then
    { s with isLoaded := true } else s
  (windowGoogleAvailable || s'.isLoaded, s')

/-- `isGoogleMapsLoading()`. -/
def isGoogleMapsLoading (s : LoaderState) : Bool × LoaderState :=
  (s.isLoading, s)

/-- `resetGoogleMapsLoadingState()`. -/
def resetGoogleMapsLoadingState (_ : LoaderState) : LoaderState :=
  { isLoading := false, isLoaded := false, loadPromise := none }

/-- Every operation that touches the loader state, apart from the test-only
reset. -/
inductive LoaderOp where
  | load (env : LoadEnv) (fresh : Nat)
  | timeoutFired
  | scriptReady
  | scriptError
  | retryAttempt (env : LoadEnv)
  | queryLoaded (windowGoogleAvailable : Bool)
  | queryLoading
deriving DecidableEq, Repr

/-- State effect of one non-reset loader operation. `retryAttempt` is the
retry policy re-running the acquisition body after a retryable failure:
it re-arms `isLoading` without re-assigning `loadPromise`. -/
def applyLoaderOp (op : LoaderOp) (s : LoaderState) : LoaderState :=
  match op with
  | .load env fresh => (loadGoogleMapsAPI env fresh s).2
  | .timeoutFired => loadTimeoutFired s
  | .scriptReady => scriptLoadedReady s
  | .scriptError => scriptErrored s
  | .retryAttempt env => acquisitionBodyStart env s
  | .queryLoaded w => (isGoogleMapsLoaded w s).2
  | .queryLoading => (isGoogleMapsLoading s).2

/-- Run a sequence of non-reset loader operations. -/
def runLoader (s : LoaderState) : List LoaderOp → LoaderState
  | [] => s
  | op :: ops => runLoader (applyLoaderOp op s) ops

/-! ### Country catalog and selector (`src/lib/countries.ts`) -/

/-- The `COUNTRIES` dataset: the curated catalog of countries with optimal
viewing coordinates, in source order. -/
def COUNTRIES : List Country :=
  [ ⟨"United States", ⟨39.8283, -98.5795⟩, 4, "US"⟩,
    ⟨"Canada", ⟨56.1304, -106.3468⟩, 3, "CA"⟩,
    ⟨"Mexico", ⟨23.6345, -102.5528⟩, 5, "MX"⟩,
    ⟨"Brazil", ⟨-14.235, -51.9253⟩, 4, "BR"⟩,
    ⟨"Argentina", ⟨-38.4161, -63.6167⟩, 4, "AR"⟩,
    ⟨"Chile", ⟨-35.6751, -71.543⟩, 4, "CL"⟩,
    ⟨"Peru", ⟨-9.19, -75.0152⟩, 5, "PE"⟩,
    ⟨"Colombia", ⟨4.5709, -74.2973⟩, 5, "CO"⟩,
    ⟨"United Kingdom", ⟨55.3781, -3.436⟩, 6, "GB"⟩,
    ⟨"France", ⟨46.6034, 1.8883⟩, 6, "FR"⟩,
    ⟨"Germany", ⟨51.1657, 10.4515⟩, 6, "DE"⟩,
    ⟨"Italy", ⟨41.8719, 12.5674⟩, 6, "IT"⟩,
    ⟨"Spain", ⟨40.4637, -3.7492⟩, 6, "ES"⟩,
    ⟨"Russia", ⟨61.524, 105.3188⟩, 3, "RU"⟩,
    ⟨"Norway", ⟨60.472, 8.4689⟩, 5, "NO"⟩,
    ⟨"Sweden", ⟨60.1282, 18.6435⟩, 5, "SE"⟩,
    ⟨"Finland", ⟨61.9241, 25.7482⟩, 5, "FI"⟩,
    ⟨"Poland", ⟨51.9194, 19.1451⟩, 6, "PL"⟩,
    ⟨"Netherlands", ⟨52.1326, 5.2913⟩, 7, "NL"⟩,
    ⟨"Switzerland", ⟨46.8182, 8.2275⟩, 7, "CH"⟩,
    ⟨"China", ⟨35.8617, 104.1954⟩, 4, "CN"⟩,
    ⟨"India", ⟨20.5937, 78.9629⟩, 5, "IN"⟩,
    ⟨"Japan", ⟨36.2048, 138.2529⟩, 5, "JP"⟩,
    ⟨"South Korea", ⟨35.9078, 127.7669⟩, 7, "KR"⟩,
    ⟨"Thailand", ⟨15.87, 100.9925⟩, 6, "TH"⟩,
    ⟨"Vietnam", ⟨14.0583, 108.2772⟩, 6, "VN"⟩,
    ⟨"Indonesia", ⟨-0.7893, 113.9213⟩, 5, "ID"⟩,
    ⟨"Malaysia", ⟨4.2105, 101.9758⟩, 6, "MY"⟩,
    ⟨"Philippines", ⟨12.8797, 121.774⟩, 6, "PH"⟩,
    ⟨"Turkey", ⟨38.9637, 35.2433⟩, 6, "TR"⟩,
    ⟨"Iran", ⟨32.4279, 53.688⟩, 5, "IR"⟩,
    ⟨"Saudi Arabia", ⟨23.8859, 45.0792⟩, 5, "SA"⟩,
    ⟨"South Africa", ⟨-30.5595, 22.9375⟩, 5, "ZA"⟩,
    ⟨"Egypt", ⟨26.0975, 31.2357⟩, 6, "EG"⟩,
    ⟨"Nigeria", ⟨9.082, 8.6753⟩, 6, "NG"⟩,
    ⟨"Kenya", ⟨-0.0236, 37.9062⟩, 6, "KE"⟩,
    ⟨"Morocco", ⟨31.7917, -7.0926⟩, 6, "MA"⟩,
    ⟨"Ethiopia", ⟨9.145, 40.4897⟩, 6, "ET"⟩,
    ⟨"Ghana", ⟨7.9465, -1.0232⟩, 7, "GH"⟩,
    ⟨"Australia", ⟨-25.2744, 133.7751⟩, 4, "AU"⟩,
    ⟨"New Zealand", ⟨-40.9006, 174.886⟩, 6, "NZ"⟩,
    ⟨"Iceland", ⟨64.9631, -19.0208⟩, 7, "IS"⟩,
    ⟨"Greenland", ⟨71.7069, -42.6043⟩, 4, "GL"⟩,
    ⟨"Madagascar", ⟨-18.7669, 46.8691⟩, 6, "MG"⟩,
    ⟨"Cuba", ⟨21.5218, -77.7812⟩, 7, "CU"⟩,
    ⟨"Jamaica", ⟨18.1096, -77.2975⟩, 8, "JM"⟩,
    ⟨"Sri Lanka", ⟨7.8731, 80.7718⟩, 7, "LK"⟩,
    ⟨"Bangladesh", ⟨23.685, 90.3563⟩, 7, "BD"⟩,
    ⟨"Nepal", ⟨28.3949, 84.124⟩, 7, "NP"⟩,
    ⟨"Mongolia", ⟨46.8625, 103.8467⟩, 5, "MN"⟩,
    ⟨"Kazakhstan", ⟨48.0196, 66.9237⟩, 4, "KZ"⟩,
    ⟨"Ukraine", ⟨48.3794, 31.1656⟩, 6, "UA"⟩ ]

namespace CountrySelector

/-- The constructor's clamping of the configured bound:
`Math.min(maxRecentSize, COUNTRIES.length - 1)` over a given catalog. -/
def effectiveBound (configured : Nat) (catalog : List Country) : Nat :=
  min configured (catalog.length - 1)

/-- The body of `selectRandomCountry()` without the clear-and-retry branch:
filter out recently selected codes, pick the entry at the random index, add
its code, evict the oldest code when over the bound. Returns `none` exactly
when every entry is filtered out (the branch that clears and retries). The
recently-selected set is insertion-ordered, oldest first. -/
def selectOnce (catalog : List Country) (maxRecentSize : Nat)
    (recently : List String) (r : Nat) : Option (Country × List String) :=
  let available := catalog.filter (fun c => !(recently.contains c.code))
  if h : available.length = 0 then none
  else
    let selected := available.get ⟨r % available.length,
      Nat.mod_lt _ (Nat.pos_of_ne_zero h)⟩
    let withNew := recently ++ [selected.code]
    some (selected, if maxRecentSize < withNew.length then withNew.tail else withNew)

/-- `selectRandomCountry()`: when all countries are recently selected, clear
the recently-selected set and retry once (the source recurses; after a clear
the filter removes nothing, so one retry decides it). Returns `none` only
when the catalog itself is empty, where the source would recurse forever. -/
def selectRandomCountry (catalog : List Country) (maxRecentSize : Nat)
    (recently : List String) (r : Nat) : Option (Country × List String) :=
  match selectOnce catalog maxRecentSize recently r with
  | some res => some res
  | none => selectOnce catalog maxRecentSize [] r

/-- Codes produced by consecutive `selectRandomCountry()` calls, one per
random draw, starting from the given recently-selected set. -/
def runSelector (catalog : List Country) (maxRecentSize : Nat) :
    List String → List Nat → List String
  | _, [] => []
  | recently, r :: rs =>
    match selectRandomCountry catalog maxRecentSize recently r with
    | none => []
    | some (c, recently') => c.code :: runSelector catalog maxRecentSize recently' rs

end CountrySelector

/-- The suffix of the last `n` elements of a list (insertion-ordered recent
codes keep the newest at the tail). -/
def takeLast (n : Nat) (l : List String) : List String :=
  l.drop (l.length - n)

/-! ### Cycling controller (`src/hooks/useCountryCycling.ts`)

The hook's `CountryCyclingState` plus the two timer refs form the
controller state. Operations are the exposed control functions, the user
interaction handler, the timer callbacks, and the reactions of the
`timeoutPrevented` effect, taken edge-triggered as in the spec (the
reaction to the flag becoming true or false). The country selection inside
`nextCountry` is `getRandomCountryWithoutRepetition()`, whose result (or
thrown failure, which the hook catches) is an operation parameter. -/

/-- The hook's `CountryCyclingState`. -/
structure CyclingState where
  currentCountry : Option Country
  isActive : Bool
  isPaused : Bool
deriving DecidableEq, Repr

/-- Controller state: cycling state plus the two timer refs
(`cycleTimerRef`, `idleTimerRef`), each live or cleared. -/
structure HookState where
  cycling : CyclingState
  cycleTimer : Bool
  idleTimer : Bool
deriving DecidableEq, Repr

/-- The state before `start()` has ever run. -/
def initHookState : HookState :=
  { cycling := { currentCountry := none, isActive := false, isPaused := false }
    cycleTimer := false, idleTimer := false }

/-- Operations on the controller state. `sel` is the outcome of
`getRandomCountryWithoutRepetition()` (`none` when it threw; the hook
catches the failure and keeps the previous country). -/
inductive CycOp where
  | start (sel : Option Country)
  | stop
  | pause
  | resume
  | next (sel : Option Country)
  | interact (timeoutPrevented : Bool)
  | idleFire
  | cycleFire (sel : Option Country)
  | effectSync
  | preventOn
  | preventOff (autoStart : Bool) (sel : Option Country)
deriving DecidableEq, Repr

/-- `clearTimers()`. -/
def clearTimers (s : HookState) : HookState :=
  { s with cycleTimer := false, idleTimer := false }

/-- `nextCountry()`: select, update `currentCountry`, navigate; a selection
failure is caught and logged, leaving the state unchanged. -/
def nextCountryOp (sel : Option Country) (s : HookState) : HookState :=
  match sel with
  | some c => { s with cycling := { s.cycling with currentCountry := some c } }
  | none => s

/-- `startCycleTimer()`: clear any live cycle timer, then arm it. -/
def startCycleTimer (s : HookState) : HookState :=
  { s with cycleTimer := true }

/-- `start()`: mark active and unpaused, select an initial country when none
is set, and (re)start the cycle timer. -/
def startOp (sel : Option Country) (s : HookState) : HookState :=
  let s1 := { s with cycling := { s.cycling with isActive := true, isPaused := false } }
  let s2 := if s.cycling.currentCountry = none then nextCountryOp sel s1 else s1
  startCycleTimer s2

/-- `stop()`: mark inactive and unpaused, clear both timers; does not clear
`currentCountry`. -/
def stopOp (s : HookState) : HookState :=
  clearTimers { s with cycling := { s.cycling with isActive := false, isPaused := false } }

/-- `pause()`: mark paused and clear both timers, without starting an idle
timer and without checking `isActive`. -/
def pauseOp (s : HookState) : HookState :=
  clearTimers { s with cycling := { s.cycling with isPaused := true } }

/-- `resume()`: a no-op when inactive; otherwise clear the paused flag and
restart the cycle timer. -/
def resumeOp (s : HookState) : HookState :=
  if s.cycling.isActive = false then s
  else startCycleTimer { s with cycling := { s.cycling with isPaused := false } }

/-- `handleUserInteraction()`: ignored entirely under timeout prevention;
otherwise pause when running, clear both timers, and arm the idle timer. -/
def handleUserInteraction (timeoutPrevented : Bool) (s : HookState) : HookState :=
  if timeoutPrevented then s
  else
    let cyc := if s.cycling.isActive = false ∨ s.cycling.isPaused then s.cycling
      else { s.cycling with isPaused := true }
    { cycling := cyc, cycleTimer := false, idleTimer := true }

/-- The one-shot idle timer firing: a no-op when the timer is not live;
otherwise clear the paused flag unless the controller was stopped. -/
def idleFireOp (s : HookState) : HookState :=
  if s.idleTimer then
    { s with
      cycling := if s.cycling.isActive = false then s.cycling
        else { s.cycling with isPaused := false }
      idleTimer := false }
  else s

/-- The repeating cycle timer firing: a no-op when the timer is not live;
otherwise run `nextCountry()` (the interval stays armed). -/
def cycleFireOp (sel : Option Country) (s : HookState) : HookState :=
  if s.cycleTimer then nextCountryOp sel s else s

/-- The state-sync effect: keep the cycle timer armed exactly while active
and unpaused (it touches only the timer, never the cycling state). -/
def effectSyncOp (s : HookState) : HookState :=
  if s.cycling.isActive ∧ s.cycling.isPaused = false then
    { s with cycleTimer := true }
  else { s with cycleTimer := false }

/-- Reaction to `timeoutPrevented` becoming true: when active, clear all
timers and force the paused flag. -/
def preventOnOp (s : HookState) : HookState :=
  if s.cycling.isActive then
    { clearTimers s with cycling := { s.cycling with isPaused := true } }
  else s

/-- Reaction to `timeoutPrevented` becoming false: when active and paused,
clear the paused flag; when stopped with `autoStart`, run the scheduled
`start()`. -/
def preventOffOp (autoStart : Bool) (sel : Option Country) (s : HookState) : HookState :=
  if s.cycling.isActive ∧ s.cycling.isPaused then
    { s with cycling := { s.cycling with isPaused := false } }
  else if s.cycling.isActive = false ∧ autoStart then startOp sel s
  else s

/-- Apply one controller operation. -/
def applyOp : CycOp → HookState → HookState
  | .start sel => startOp sel
  | .stop => stopOp
  | .pause => pauseOp
  | .resume => resumeOp
  | .next sel => nextCountryOp sel
  | .interact tp => handleUserInteraction tp
  | .idleFire => idleFireOp
  | .cycleFire sel => cycleFireOp sel
  | .effectSync => effectSyncOp
  | .preventOn => preventOnOp
  | .preventOff a sel => preventOffOp a sel

/-- Run a sequence of controller operations. -/
def runOps (s : HookState) : List CycOp → HookState
  | [] => s
  | op :: ops => runOps (applyOp op s) ops

/-- The enforced-invariant predicate: inactive implies unpaused. -/
def cyclingInv (s : HookState) : Prop :=
  s.cycling.isActive = false → s.cycling.isPaused = false

/-- Check that `pause()` is only invoked while the controller is active, as
in the spec's `pause(): Running → RunningPaused` transition. -/
def pauseOnlyWhileActive (s : HookState) : List CycOp → Bool
  | [] => true
  | op :: ops =>
    (op != CycOp.pause || s.cycling.isActive) &&
      pauseOnlyWhileActive (applyOp op s) ops

/-- The viewport driver surface the binding reads: its current zoom. -/
structure MapDriverState where
  center : LatLng
  zoom : Int
deriving DecidableEq, Repr

/-- A call issued against the viewport driver. -/
inductive DriverCall where
  | panTo (c : LatLng)
  | setZoom (z : Int)
deriving DecidableEq, Repr

/-- Observable outcome of `handleCountryTransition`: the driver calls made
immediately, the delayed `setZoom` (delay in milliseconds and zoom level)
when one was scheduled, and whether the country-change callback ran. -/
structure TransitionResult where
  calls : List DriverCall
  scheduled : Option (Nat × Int)
  notifiedChange : Bool
deriving DecidableEq, Repr

/-- `handleCountryTransition(country)`: warn and do nothing without a map or
country; otherwise pan to the country's center, and if the driver's current
zoom differs from the country's zoom, schedule `setZoom` 200 ms later; then
invoke the `onCountryChange` callback when one is registered. -/
def handleCountryTransition (map : Option MapDriverState)
    (country : Option Country) (hasCallback : Bool) : TransitionResult :=
  match map, country with
  | some m, some c =>
    { calls := [.panTo c.center]
      scheduled := if m.zoom ≠ c.zoom then some (200, c.zoom) else none
      notifiedChange := hasCallback }
  | _, _ => { calls := [], scheduled := none, notifiedChange := false }

/-! ### Controller lemmas -/

/-- After `start()`, the controller is active and unpaused. -/
theorem startOp_cycling_flags (sel : Option Country) (s : HookState) :
    (startOp sel s).cycling.isActive = true ∧ (startOp sel s).cycling.isPaused = false := by
  simp only [startOp, startCycleTimer, nextCountryOp]
  cases sel <;> split <;> simp

/-- Every operation preserves the invariant, provided `pause()` is only
applied in active states. -/
theorem applyOp_preserves_inv (op : CycOp) (s : HookState)
    (hInv : cyclingInv s) (hp : op = CycOp.pause → s.cycling.isActive = true) :
    cyclingInv (applyOp op s) := by
  obtain ⟨⟨cc, act, pau⟩, ct, it⟩ := s
  cases op <;> cases act <;> cases pau <;>
    simp_all [cyclingInv, applyOp, startOp, stopOp, pauseOp, resumeOp,
      nextCountryOp, handleUserInteraction, idleFireOp, cycleFireOp,
      effectSyncOp, preventOnOp, preventOffOp, clearTimers, startCycleTimer] <;>
    repeat' (first | split | simp_all)

/-- C1 counterexample: the claim as stated is false. `pause()` applied in
the initial Stopped state (a one-operation sequence of listed controller
operations) yields `isActive = false` together with `isPaused = true`,
violating the invariant. -/
theorem C1_cex_pause_while_stopped :
    (runOps initHookState [CycOp.pause]).cycling.isActive = false ∧
    (runOps initHookState [CycOp.pause]).cycling.isPaused = true := by
  constructor <;> rfl

/-- C1 (amended): for every sequence of controller operations in which
`pause()` is only invoked while the controller is active, the cycling state
invariant holds after every operation: whenever `isActive = false`, the
state also has `isPaused = false`. -/
theorem C1_cycling_invariant (s : HookState) (ops : List CycOp)
    (hInv : cyclingInv s) (hp : pauseOnlyWhileActive s ops = true) :
    cyclingInv (runOps s ops) := by
  induction ops generalizing s with
  | nil => exact hInv
  | cons op ops ih =>
    rw [pauseOnlyWhileActive, Bool.and_eq_true] at hp
    refine ih (applyOp op s) (applyOp_preserves_inv op s hInv ?_) hp.2
    intro hop
    rcases hp.1 with h1
    rw [hop] at h1
    simpa using h1

/-- Witness for C1: a concrete run through start, interaction, idle-fire,
pause (while active) and stop keeps the invariant. -/
theorem C1_cycling_invariant_witness :
    cyclingInv (runOps initHookState
      [CycOp.start none, CycOp.interact false, CycOp.idleFire,
       CycOp.pause, CycOp.stop]) :=
  C1_cycling_invariant initHookState
    [CycOp.start none, CycOp.interact false, CycOp.idleFire,
     CycOp.pause, CycOp.stop]
    (fun _ => rfl) (by decide)

/-- C10: a user interaction while the controller is Stopped (with timeout
prevention off) leaves the cycling state unchanged, and although the
handler does arm the one-shot idle timer, that timer's firing also leaves
the cycling state unchanged. -/
theorem C10_interaction_while_stopped_silent (s : HookState)
    (hA : s.cycling.isActive = false) :
    (handleUserInteraction false s).cycling = s.cycling ∧
    (handleUserInteraction false s).idleTimer = true ∧
    (idleFireOp (handleUserInteraction false s)).cycling = s.cycling := by
  refine ⟨by simp [handleUserInteraction, hA], by simp [handleUserInteraction], ?_⟩
  simp [handleUserInteraction, idleFireOp, hA]

/-- Witness for C10 at a concrete Stopped state. -/
theorem C10_interaction_while_stopped_silent_witness :
    (idleFireOp (handleUserInteraction false initHookState)).cycling =
      initHookState.cycling :=
  (C10_interaction_while_stopped_silent initHookState rfl).2.2

/-- C7: the location-change handler pans to the new location's center, and
schedules `setZoom` 200 ms later exactly when the driver's current zoom
differs from the location's zoom. -/
theorem C7_onLocationChange_pan_then_zoom (m : MapDriverState) (c : Country)
    (cb : Bool) :
    (handleCountryTransition (some m) (some c) cb).calls = [DriverCall.panTo c.center] ∧
    (m.zoom ≠ c.zoom →
      (handleCountryTransition (some m) (some c) cb).scheduled = some (200, c.zoom)) ∧
    (m.zoom = c.zoom →
      (handleCountryTransition (some m) (some c) cb).scheduled = none) := by
  refine ⟨rfl, ?_, ?_⟩ <;> intro h <;> simp [handleCountryTransition, h]

/-- Witness for C7: a driver at zoom 3 moving to France (zoom 6) gets a
delayed `setZoom 6`. -/
theorem C7_onLocationChange_pan_then_zoom_witness :
    (handleCountryTransition (some { center := ⟨0, 0⟩, zoom := 3 })
      (some ⟨"France", ⟨46.6034, 1.8883⟩, 6, "FR"⟩) true).scheduled = some (200, 6) :=
  (C7_onLocationChange_pan_then_zoom { center := ⟨0, 0⟩, zoom := 3 }
    ⟨"France", ⟨46.6034, 1.8883⟩, 6, "FR"⟩ true).2.1 (by decide)

/-! ### Loader theorems -/

/-- Every non-reset loader operation keeps `isLoaded` set. -/
theorem applyLoaderOp_keeps_loaded (op : LoaderOp) (s : LoaderState)
    (h : s.isLoaded = true) : (applyLoaderOp op s).isLoaded = true := by
  obtain ⟨il, ld, lp⟩ := s
  subst h
  cases op with
  | load env fresh =>
    simp only [applyLoaderOp, loadGoogleMapsAPI, loadGoogleMapsAPIStart]
    cases il <;> cases lp <;> simp
  | retryAttempt env =>
    simp only [applyLoaderOp, acquisitionBodyStart]
    cases henv : env.apiKeyValid <;> cases hw : env.windowGoogleAvailable <;> simp
  | queryLoaded w =>
    simp only [applyLoaderOp, isGoogleMapsLoaded]
    cases w <;> simp
  | _ => rfl

/-- C4 counterexample: the claim as stated is false. From the initial state,
a `load()` whose script times out is retried by the error handler; the
re-invoked acquisition body re-arms `isLoading` while `loadPromise` stays
cleared (the timeout handler nulled it and only `load()` assigns it). In
that reachable state `isLoading = true`, yet a second `load()` does not
return a pending promise — it starts a brand-new acquisition. -/
theorem C4_cex_second_load_during_retry :
    (runLoader { isLoading := false, isLoaded := false, loadPromise := none }
      [LoaderOp.load { offline := false, windowGoogleAvailable := false, apiKeyValid := true } 1,
       LoaderOp.timeoutFired,
       LoaderOp.retryAttempt { offline := false, windowGoogleAvailable := false, apiKeyValid := true }]) =
      { isLoading := true, isLoaded := false, loadPromise := none } ∧
    (loadGoogleMapsAPI { offline := false, windowGoogleAvailable := false, apiKeyValid := true }
      2 { isLoading := true, isLoaded := false, loadPromise := none }).1 =
      LoadCallResult.started 2 := by
  constructor <;> rfl

/-- C4 (amended): a `load()` call while a previous call is pending and its
promise is still recorded (`isLoading` true and `loadPromise` set) returns
that very promise and leaves the loader state untouched — only during a
retry re-attempt after a timeout or script failure, when `loadPromise` has
been cleared, does a second `load()` start a new acquisition; and once
`isLoaded` holds, every sequence of non-reset loader operations (the retry
re-arm included) keeps it holding. -/
theorem C4_loader_single_flight (env : LoadEnv) (fresh p : Nat)
    (s t : LoaderState) (ops : List LoaderOp)
    (hL : s.isLoading = true) (hP : s.loadPromise = some p)
    (hT : t.isLoaded = true) :
    loadGoogleMapsAPI env fresh s = (LoadCallResult.existing p, s) ∧
    (runLoader t ops).isLoaded = true := by
  constructor
  · simp [loadGoogleMapsAPI, hL, hP]
  · induction ops generalizing t with
    | nil => exact hT
    | cons op ops ih => exact ih (applyLoaderOp op t) (applyLoaderOp_keeps_loaded op t hT)

/-- Witness for C4: a pending load with promise 7 still recorded is
returned as-is, and a loaded state stays loaded across a timeout, a retry
re-arm, a query and another load. -/
theorem C4_loader_single_flight_witness :
    loadGoogleMapsAPI { offline := false, windowGoogleAvailable := false, apiKeyValid := true }
      8 { isLoading := true, isLoaded := false, loadPromise := some 7 } =
      (LoadCallResult.existing 7,
       { isLoading := true, isLoaded := false, loadPromise := some 7 }) ∧
    (runLoader { isLoading := false, isLoaded := true, loadPromise := some 7 }
      [LoaderOp.timeoutFired,
       LoaderOp.retryAttempt { offline := false, windowGoogleAvailable := false, apiKeyValid := true },
       LoaderOp.queryLoaded false,
       LoaderOp.load { offline := false, windowGoogleAvailable := false, apiKeyValid := true } 9]).isLoaded = true :=
  C4_loader_single_flight _ 8 7 _ _ _ rfl rfl rfl

/-- C8 counterexample: `isGoogleMapsLoaded()` is not a pure query. When the
capability is present in the window but the module flag is still clear, the
call mutates the loader state (it latches `isLoaded`). -/
theorem C8_cex_isLoaded_mutates :
    (isGoogleMapsLoaded true
      { isLoading := false, isLoaded := false, loadPromise := none }).2 ≠
      { isLoading := false, isLoaded := false, loadPromise := none } := by
  decide

/-- C8 (amended): `isGoogleMapsLoading()` is a pure query; `isGoogleMapsLoaded()`
may latch the `isLoaded` flag from the window capability but touches nothing
else, is result-stable and state-stable from the second call on, and is pure
whenever the window capability is absent; `reset()` unconditionally clears
all loader state. -/
theorem C8_status_queries_and_reset (w : Bool) (s : LoaderState) :
    isGoogleMapsLoading s = (s.isLoading, s) ∧
    (isGoogleMapsLoaded w s).2.isLoading = s.isLoading ∧
    (isGoogleMapsLoaded w s).2.loadPromise = s.loadPromise ∧
    isGoogleMapsLoaded w (isGoogleMapsLoaded w s).2 = isGoogleMapsLoaded w s ∧
    (isGoogleMapsLoaded false s).2 = s ∧
    resetGoogleMapsLoadingState s =
      { isLoading := false, isLoaded := false, loadPromise := none } := by
  obtain ⟨il, ld, lp⟩ := s
  cases w <;> cases ld <;>
    simp [isGoogleMapsLoading, isGoogleMapsLoaded, resetGoogleMapsLoadingState]

/-! ### Categorizer theorems -/

/-- C6 counterexample: the context hint does not take precedence over
message matching of an earlier bucket. With hint `api_load` and message
"network timeout", the code lands in the network bucket, while the claim's
hint-first reading demands the acquisition bucket. -/
theorem C6_cex_hint_not_precedent :
    (createMapError "network timeout" ErrorContext.api_load).type =
      MapErrorType.network_error ∧
    (hintFirstCategorize "network timeout" ErrorContext.api_load).type =
      MapErrorType.api_load_failed ∧
    createMapError "network timeout" ErrorContext.api_load ≠
      hintFirstCategorize "network timeout" ErrorContext.api_load := by
  refine ⟨by decide, by decide, by decide⟩

/-- C6 (amended): categorization tests the buckets in the fixed order
credential, network, acquisition, then the context default; each bucket
fires when the context hint names it or the message matches its keyword
list. A hint therefore beats message matches only of later buckets, while
an earlier bucket's message match overrides a later hint; the credential
hint in particular decides its bucket unconditionally. -/
theorem C6_ordered_bucket_categorization (m : String) (ctx : ErrorContext) :
    createMapError m ctx = orderedCategorize m ctx ∧
    (createMapError m ErrorContext.api_key).retryable = false ∧
    ((createMapError m ErrorContext.api_key).type = MapErrorType.api_key_missing ∨
     (createMapError m ErrorContext.api_key).type = MapErrorType.api_key_invalid) := by
  refine ⟨?_, ?_, ?_⟩
  · by_cases hk : isApiKeyError m <;> by_cases hn : isNetworkError m <;>
      by_cases hl : isApiLoadError m <;> cases ctx <;>
      simp [createMapError, orderedCategorize, List.find?, bucketHint,
        bucketMsgMatch, bucketError, contextDefault, hk, hn, hl]
  · by_cases hm : includesStr m "missing" <;> simp [createMapError, hm]
  · by_cases hm : includesStr m "missing" <;> simp [createMapError, hm]

/-! ### Retry handler theorems -/

/-- Shape of the wait sequence: prepending the next wait to a run started
one retry later. -/
theorem delay_seq_cons (d rc L : Nat) :
    d * (rc + 1) :: (List.range L).map (fun k => d * (rc + 1 + 1 + k)) =
    (List.range (L + 1)).map (fun k => d * (rc + 1 + k)) := by
  rw [List.range_succ_eq_map, List.map_cons, List.map_map]
  have h : ((fun k => d * (rc + 1 + k)) ∘ Nat.succ) = fun k => d * (rc + 1 + 1 + k) := by
    funext k
    simp only [Function.comp_apply, Nat.succ_eq_add_one]
    ring
  rw [h]

/-- The waits a retry run performs are always `retryDelay` times the retry
number, counted from the entering `retryCount`. -/
theorem executeWithRetryAux_delays {α : Type} (m d : Nat) (off : Bool)
    (ctx : ErrorContext) (fn : Nat → Except String α) (fuel : Nat) :
    ∀ (attempt rc : Nat),
      (ErrorHandler.executeWithRetryAux m d off fn ctx fuel attempt rc).delays =
        (List.range
          (ErrorHandler.executeWithRetryAux m d off fn ctx fuel attempt rc).delays.length).map
          (fun k => d * (rc + 1 + k)) := by
  induction fuel with
  | zero => intro attempt rc; rfl
  | succ fuel ih =>
    intro attempt rc
    rw [ErrorHandler.executeWithRetryAux]
    cases hfn : fn attempt with
    | ok v => simp
    | error msg =>
      simp only []
      split
      · simp
      · split
        · simp
        · simp only [List.length_cons]
          rw [ih (attempt + 1) (rc + 1)]
          simp only [List.length_map, List.length_range]
          exact delay_seq_cons d rc _

/-- An exhausting run: when every attempt fails with a retryable categorized
error (and the client is online), the handler performs one wait per retry,
uses the whole remaining budget, and propagates the last attempt's
categorized error. -/
theorem executeWithRetryAux_all_fail {α : Type} (m d : Nat) (ctx : ErrorContext)
    (fn : Nat → Except String α) (msgs : Nat → String)
    (hfail : ∀ i, fn i = Except.error (msgs i))
    (hre : ∀ i, (createMapError (msgs i) ctx).retryable = true) (fuel : Nat) :
    ∀ (attempt rc : Nat), rc + fuel = m + 1 → rc ≤ m →
      ErrorHandler.executeWithRetryAux m d false fn ctx fuel attempt rc =
        { result := .err (createMapError (msgs (attempt + (m - rc))) ctx)
          delays := (List.range (m - rc)).map (fun k => d * (rc + 1 + k))
          attempts := m - rc + 1
          finalRetryCount := m } := by
  induction fuel with
  | zero => intro attempt rc hfuel hrc; omega
  | succ fuel ih =>
    intro attempt rc hfuel hrc
    rw [ErrorHandler.executeWithRetryAux, hfail attempt]
    simp only [hre attempt]
    by_cases hm : m ≤ rc
    · have hrcm : rc = m := Nat.le_antisymm hrc hm
      subst hrcm
      simp [Nat.sub_self]
    · have hlt : rc < m := Nat.lt_of_not_le hm
      rw [if_neg (by simp [hm]), if_neg (by simp)]
      rw [ih (attempt + 1) (rc + 1) (by omega) (by omega)]
      have h1 : attempt + 1 + (m - (rc + 1)) = attempt + (m - rc) := by omega
      have h2 : m - (rc + 1) + 1 = m - rc := by omega
      simp only [RetryRun.mk.injEq]
      refine ⟨by rw [h1], ?_, by omega, trivial⟩
      rw [← h2]
      exact delay_seq_cons d rc (m - (rc + 1))

/-- A run that ends in success leaves the handler's `retryCount` at 0. -/
theorem executeWithRetryAux_ok_resets {α : Type} (m d : Nat) (off : Bool)
    (ctx : ErrorContext) (fn : Nat → Except String α) (fuel : Nat) :
    ∀ (attempt rc : Nat) (v : α),
      (ErrorHandler.executeWithRetryAux m d off fn ctx fuel attempt rc).result = .ok v →
      (ErrorHandler.executeWithRetryAux m d off fn ctx fuel attempt rc).finalRetryCount = 0 := by
  induction fuel with
  | zero =>
    intro attempt rc v h
    rw [ErrorHandler.executeWithRetryAux] at h
    simp at h
  | succ fuel ih =>
    intro attempt rc v h
    rw [ErrorHandler.executeWithRetryAux] at h ⊢
    cases hfn : fn attempt with
    | ok w => simp [hfn]
    | error msg =>
      rw [hfn] at h
      simp only [] at h ⊢
      by_cases h1 : (createMapError msg ctx).retryable = false ∨ m ≤ rc
      · rw [if_pos h1] at h
        simp at h
      · rw [if_neg h1] at h ⊢
        by_cases h2 : (createMapError msg ctx).type = MapErrorType.network_error ∧ off = true
        · rw [if_pos h2] at h
          simp at h
        · rw [if_neg h2] at h ⊢
          exact ih (attempt + 1) (rc + 1) v h

/-- C5: the retry policy. A first failure whose categorized error is
non-retryable is propagated immediately, with no wait and a single attempt;
when every attempt fails retryably (online), the handler makes the full
`maxRetries + 1` attempts, waits `retryDelay × attemptNumber` before each
retry, and propagates the last attempt's categorized error; and in every
run the waits performed are exactly `retryDelay × 1, …, retryDelay × k`. -/
theorem C5_retry_policy {α : Type} (m d : Nat) (ctx : ErrorContext)
    (fn : Nat → Except String α) :
    (∀ msg, fn 0 = Except.error msg → (createMapError msg ctx).retryable = false →
      ErrorHandler.executeWithRetry m d false fn ctx 0 =
        { result := .err (createMapError msg ctx), delays := [], attempts := 1
          finalRetryCount := 0 }) ∧
    (∀ msgs : Nat → String, (∀ i, fn i = Except.error (msgs i)) →
      (∀ i, (createMapError (msgs i) ctx).retryable = true) →
      ErrorHandler.executeWithRetry m d false fn ctx 0 =
        { result := .err (createMapError (msgs m) ctx)
          delays := (List.range m).map (fun k => d * (k + 1))
          attempts := m + 1
          finalRetryCount := m }) ∧
    (ErrorHandler.executeWithRetry m d false fn ctx 0).delays =
      (List.range
        (ErrorHandler.executeWithRetry m d false fn ctx 0).delays.length).map
        (fun k => d * (k + 1)) := by
  have hshift : (fun k => d * (0 + 1 + k)) = fun k => d * (k + 1) := by
    funext k
    ring
  refine ⟨?_, ?_, ?_⟩
  · intro msg hfn hnr
    rw [ErrorHandler.executeWithRetry, Nat.sub_zero,
      ErrorHandler.executeWithRetryAux, hfn]
    simp [hnr]
  · intro msgs hfail hre
    rw [ErrorHandler.executeWithRetry, Nat.sub_zero,
      executeWithRetryAux_all_fail m d ctx fn msgs hfail hre (m + 1) 0 0
        (by omega) (by omega)]
    simp [hshift]
  · rw [ErrorHandler.executeWithRetry, Nat.sub_zero,
      executeWithRetryAux_delays m d false ctx fn (m + 1) 0 0]
    simp [hshift]

/-- Witness for C5: a handler with 3 retries sees an API-key failure
(non-retryable) and propagates it with no wait and one attempt. -/
theorem C5_retry_policy_witness :
    ErrorHandler.executeWithRetry 3 1000 false
      (fun _ => (Except.error "API key missing" : Except String Unit))
      ErrorContext.api_key 0 =
      { result := .err (createMapError "API key missing" ErrorContext.api_key)
        delays := [], attempts := 1, finalRetryCount := 0 } :=
  (C5_retry_policy 3 1000 ErrorContext.api_key _).1 "API key missing" rfl (by decide)

/-- C9: after any successful `executeWithRetry` invocation, whatever the
entering `retryCount` was, the handler's counter is reset to 0, so
`getRetryCount()` returns 0 and a later failing invocation on the same
handler starts with the full retry budget. -/
theorem C9_success_resets_retry_count {α : Type} (m d : Nat) (off : Bool)
    (ctx : ErrorContext) (fn : Nat → Except String α) (rc0 : Nat) (v : α)
    (h : (ErrorHandler.executeWithRetry m d off fn ctx rc0).result = .ok v) :
    (ErrorHandler.executeWithRetry m d off fn ctx rc0).finalRetryCount = 0 :=
  executeWithRetryAux_ok_resets m d off ctx fn (m + 1 - rc0) 0 rc0 v h

/-- Witness for C9: a success entered with `retryCount = 2` leaves the
counter at 0. -/
theorem C9_success_resets_retry_count_witness :
    (ErrorHandler.executeWithRetry 3 1000 false
      (fun _ => (Except.ok () : Except String Unit))
      ErrorContext.api_load 2).finalRetryCount = 0 :=
  C9_success_resets_retry_count 3 1000 false ErrorContext.api_load _ 2 () rfl

/-! ### Selector theorems -/

/-- The recent-codes suffix never exceeds the bound. -/
theorem takeLast_length_le (B : Nat) (l : List String) :
    (takeLast B l).length ≤ B := by
  simp only [takeLast, List.length_drop]
  omega

/-- Dropping nothing: a list within the bound is its own suffix. -/
theorem takeLast_of_le (B : Nat) (l : List String) (h : l.length ≤ B) :
    takeLast B l = l := by
  simp [takeLast, Nat.sub_eq_zero_of_le h]

/-- Appending one element and re-taking the suffix ignores everything the
first suffix already dropped. -/
theorem takeLast_append_takeLast (B : Nat) (prev : List String) (x : String) :
    takeLast B (takeLast B prev ++ [x]) = takeLast B (prev ++ [x]) := by
  rcases Nat.eq_zero_or_pos B with hB | hB
  · subst hB
    simp only [takeLast, Nat.sub_zero, List.drop_length]
  · by_cases hp : prev.length ≤ B
    · rw [takeLast_of_le B prev hp]
    · have hlt : B < prev.length := Nat.lt_of_not_le hp
      simp only [takeLast, List.length_append, List.length_drop,
        List.length_cons, List.length_nil]
      rw [List.drop_append_eq_append_drop, List.drop_append_eq_append_drop,
        List.drop_drop]
      have e1 : prev.length - (prev.length - B) + 1 - B = 1 := by omega
      have e2 : prev.length + 1 - B = prev.length - B + 1 := by omega
      rw [e1, e2]
      congr 1
      simp only [List.length_drop]
      congr 1
      omega

/-- The source's eviction (drop the oldest code when over the bound) is
exactly re-taking the bounded suffix. -/
theorem evict_eq_takeLast (B : Nat) (recently : List String) (x : String)
    (h : recently.length ≤ B) :
    (if B < (recently ++ [x]).length then (recently ++ [x]).tail
     else recently ++ [x]) = takeLast B (recently ++ [x]) := by
  by_cases hb : B < (recently ++ [x]).length
  · rw [if_pos hb, takeLast]
    have hidx : (recently ++ [x]).length - B = 1 := by
      rw [List.length_append] at hb ⊢
      simp only [List.length_cons, List.length_nil] at hb ⊢
      omega
    rw [hidx, List.drop_one]
  · rw [if_neg hb, takeLast_of_le]
    rw [List.length_append] at hb
    simp only [List.length_cons, List.length_nil] at hb
    rw [List.length_append]
    simp only [List.length_cons, List.length_nil]
    omega

/-- With pairwise-distinct codes, a recently-shown set smaller than the
catalog can never exclude every entry. -/
theorem available_length_ne_zero (catalog : List Country) (recently : List String)
    (hcodes : (catalog.map Country.code).Nodup)
    (hlt : recently.length < catalog.length) :
    (catalog.filter (fun c => !(recently.contains c.code))).length ≠ 0 := by
  intro h0
  rw [List.length_eq_zero] at h0
  have hsub : catalog.map Country.code ⊆ recently := by
    intro x hx
    rw [List.mem_map] at hx
    obtain ⟨c, hc, rfl⟩ := hx
    have hf := List.filter_eq_nil_iff.mp h0 c hc
    have hf' : ¬((!recently.elem c.code) = true) := hf
    have hb : recently.elem c.code = true := by simpa using hf'
    exact List.elem_iff.mp hb
  have hlen := (hcodes.subperm hsub).length_le
  rw [List.length_map] at hlen
  omega

/-- One successful selection step: the picked entry comes from the catalog,
its code is not among the recent ones, and the recent set is extended with
the new code and evicted per the source. -/
theorem selectRandomCountry_spec (catalog : List Country) (B : Nat)
    (recently : List String) (r : Nat)
    (hcodes : (catalog.map Country.code).Nodup)
    (hlt : recently.length < catalog.length) :
    ∃ c : Country, c ∈ catalog ∧ recently.contains c.code = false ∧
      CountrySelector.selectRandomCountry catalog B recently r =
        some (c, if B < (recently ++ [c.code]).length
          then (recently ++ [c.code]).tail else recently ++ [c.code]) := by
  have hne := available_length_ne_zero catalog recently hcodes hlt
  have hpos : 0 < (catalog.filter (fun c => !(recently.contains c.code))).length :=
    Nat.pos_of_ne_zero hne
  refine ⟨(catalog.filter (fun c => !(recently.contains c.code))).get
    ⟨r % _, Nat.mod_lt _ hpos⟩, ?_, ?_, ?_⟩
  · have hmem := List.get_mem (catalog.filter (fun c => !(recently.contains c.code)))
      (r % (catalog.filter (fun c => !(recently.contains c.code))).length)
      (Nat.mod_lt _ hpos)
    exact (List.mem_filter.mp hmem).1
  · have hmem := List.get_mem (catalog.filter (fun c => !(recently.contains c.code)))
      (r % (catalog.filter (fun c => !(recently.contains c.code))).length)
      (Nat.mod_lt _ hpos)
    have := (List.mem_filter.mp hmem).2
    simpa using this
  · have hOnce : CountrySelector.selectOnce catalog B recently r =
        some ((catalog.filter (fun c => !(recently.contains c.code))).get
            ⟨r % _, Nat.mod_lt _ hpos⟩,
          if B < (recently ++ [((catalog.filter (fun c => !(recently.contains c.code))).get
              ⟨r % _, Nat.mod_lt _ hpos⟩).code]).length
          then (recently ++ [((catalog.filter (fun c => !(recently.contains c.code))).get
              ⟨r % _, Nat.mod_lt _ hpos⟩).code]).tail
          else recently ++ [((catalog.filter (fun c => !(recently.contains c.code))).get
              ⟨r % _, Nat.mod_lt _ hpos⟩).code]) := by
      simp only [CountrySelector.selectOnce]
      rw [dif_neg hne]
    simp only [CountrySelector.selectRandomCountry, hOnce]

/-- Core induction: every code the run emits is absent from the bounded
recent-suffix of everything emitted before it, and each call returns. -/
theorem runSelector_fresh (catalog : List Country) (B : Nat)
    (hcodes : (catalog.map Country.code).Nodup) (hB : B < catalog.length)
    (rs : List Nat) :
    ∀ prev : List String,
      (CountrySelector.runSelector catalog B (takeLast B prev) rs).length = rs.length ∧
      ∀ (j : Nat) (x : String),
        (CountrySelector.runSelector catalog B (takeLast B prev) rs)[j]? = some x →
        x ∉ takeLast B (prev ++
          (CountrySelector.runSelector catalog B (takeLast B prev) rs).take j) := by
  induction rs with
  | nil =>
    intro prev
    refine ⟨rfl, ?_⟩
    intro j x hx
    simp [CountrySelector.runSelector] at hx
  | cons r rs ih =>
    intro prev
    have hrec : (takeLast B prev).length ≤ B := takeLast_length_le B prev
    obtain ⟨c, hcat, hnotin, heq⟩ :=
      selectRandomCountry_spec catalog B (takeLast B prev) r hcodes (by omega)
    rw [evict_eq_takeLast B (takeLast B prev) c.code hrec,
      takeLast_append_takeLast] at heq
    have hrun : CountrySelector.runSelector catalog B (takeLast B prev) (r :: rs) =
        c.code :: CountrySelector.runSelector catalog B
          (takeLast B (prev ++ [c.code])) rs := by
      simp only [CountrySelector.runSelector, heq]
    rw [hrun]
    obtain ⟨ihlen, ihfresh⟩ := ih (prev ++ [c.code])
    refine ⟨by simp [ihlen], ?_⟩
    intro j x hx
    match j with
    | 0 =>
      rw [List.getElem?_cons_zero, Option.some_inj] at hx
      subst hx
      rw [List.take_zero, List.append_nil]
      intro hmem
      have h1 : (takeLast B prev).elem c.code = true := List.elem_iff.mpr hmem
      have h2 : (takeLast B prev).elem c.code = false := hnotin
      rw [h1] at h2
      exact Bool.noConfusion h2
    | j + 1 =>
      rw [List.getElem?_cons_succ] at hx
      rw [List.take_succ_cons, List.append_cons]
      exact ihfresh j x hx

/-- Membership in the bounded suffix: an element at most `B` positions
before position `j` is among the last `B` elements of the first `j`. -/
theorem mem_takeLast_of_near (B : Nat) (l : List String) (i j : Nat) (x : String)
    (hij : i < j) (hjl : j ≤ l.length) (hwin : j - i ≤ B)
    (hx : l[i]? = some x) : x ∈ takeLast B (l.take j) := by
  have hlen : (l.take j).length = j := by
    rw [List.length_take]
    exact min_eq_left hjl
  rw [takeLast, hlen, List.mem_iff_getElem?]
  refine ⟨i - (j - B), ?_⟩
  rw [List.getElem?_drop]
  have hidx : j - B + (i - (j - B)) = i := by omega
  rw [hidx, List.getElem?_take, if_pos hij]
  exact hx

/-- C3: with a catalog of pairwise-distinct codes whose size exceeds the
effective bound plus one, every call of the selector returns, and no two of
any `B + 1` consecutive returned codes coincide. -/
theorem C3_selector_no_repeat_window (catalog : List Country) (configured B : Nat)
    (rs : List Nat)
    (hcodes : (catalog.map Country.code).Nodup)
    (hB : B = CountrySelector.effectiveBound configured catalog)
    (hN : B + 1 < catalog.length) :
    (CountrySelector.runSelector catalog B [] rs).length = rs.length ∧
    ∀ i j : Nat, i < j →
      j < (CountrySelector.runSelector catalog B [] rs).length → j - i ≤ B →
      (CountrySelector.runSelector catalog B [] rs)[i]? ≠
        (CountrySelector.runSelector catalog B [] rs)[j]? := by
  have h0 : takeLast B ([] : List String) = [] := by simp [takeLast]
  have main := runSelector_fresh catalog B hcodes (by omega) rs []
  rw [h0] at main
  refine ⟨main.1, ?_⟩
  intro i j hij hj hwin heq
  have hi : i < (CountrySelector.runSelector catalog B [] rs).length :=
    Nat.lt_trans hij hj
  rw [List.getElem?_eq_getElem hi, List.getElem?_eq_getElem hj,
    Option.some_inj] at heq
  have hfresh := main.2 j ((CountrySelector.runSelector catalog B [] rs)[j])
    (List.getElem?_eq_getElem hj)
  rw [List.nil_append] at hfresh
  refine hfresh ?_
  rw [← heq]
  exact mem_takeLast_of_near B (CountrySelector.runSelector catalog B [] rs) i j _
    hij (Nat.le_of_lt hj) hwin (List.getElem?_eq_getElem hi)

/-- Witness for C3: the real catalog (pairwise-distinct codes) with the
constructor default bound 5 yields six distinct codes for six draws. -/
theorem C3_selector_no_repeat_window_witness :
    (CountrySelector.runSelector COUNTRIES (CountrySelector.effectiveBound 5 COUNTRIES)
      [] [0, 1, 2, 3, 4, 5]).length = [0, 1, 2, 3, 4, 5].length ∧
    ∀ i j : Nat, i < j →
      j < (CountrySelector.runSelector COUNTRIES (CountrySelector.effectiveBound 5 COUNTRIES)
        [] [0, 1, 2, 3, 4, 5]).length →
      j - i ≤ CountrySelector.effectiveBound 5 COUNTRIES →
      (CountrySelector.runSelector COUNTRIES (CountrySelector.effectiveBound 5 COUNTRIES)
        [] [0, 1, 2, 3, 4, 5])[i]? ≠
        (CountrySelector.runSelector COUNTRIES (CountrySelector.effectiveBound 5 COUNTRIES)
          [] [0, 1, 2, 3, 4, 5])[j]? :=
  C3_selector_no_repeat_window COUNTRIES 5 (CountrySelector.effectiveBound 5 COUNTRIES)
    [0, 1, 2, 3, 4, 5] (by decide) rfl (by decide)
